import Mathlib

/-!
Shallow embedding of `src/server.py` (Flask chat backend).

The embedding models the conversation-manager state of the server:
the global in-memory `conversation_history` (the Working Transcript),
the users file (a list of user records), and the per-client session
(`username`, `current_conversation`).  The HTTP handlers `chat`,
`api_get_conversation`, `api_new_chat` and `api_conversations` become
pure functions from a server state (plus request data, plus an oracle
for the outcome of the outbound completion calls) to a response and a
new server state.
-/

namespace ChatLLM

/-- One chat message: a dict with `role` and `content` keys (server.py line 44). -/
structure Turn where
  role : String
  content : String
deriving DecidableEq, Repr

/-- A stored conversation: `{"messages": [...]}` (server.py line 312). -/
structure Conversation where
  messages : List Turn
deriving DecidableEq, Repr

/-- A user record in `users.json`: username, password hash, role,
conversations (server.py lines 191-196). -/
structure User where
  username : String
  password_hash : String
  role : String
  conversations : List Conversation
deriving DecidableEq, Repr

/-- The Flask session for one client: `session["username"]` and
`session["current_conversation"]` (server.py lines 159-161). -/
structure Session where
  username : Option String
  current_conversation : Option Nat
deriving DecidableEq, Repr

/-- The server state visible to one client: the global in-memory
`conversation_history` (Working Transcript), the persisted users list,
and the client's session. -/
structure ServerState where
  history : List Turn
  users : List User
  session : Session
deriving DecidableEq, Repr

/-- `get_user` (server.py lines 92-98): first user record whose
username matches, else `None`. -/
def get_user : List User → String → Option User
  | [], _ => none
  | u :: rest, uname => if u.username = uname then some u else get_user rest uname

/-- `update_user` (server.py lines 101-116): replace the first record with
matching username; append as a new user if none matches. -/
def update_user : List User → User → List User
  | [], updated => [updated]
  | u :: rest, updated =>
      if u.username = updated.username then updated :: rest
      else u :: update_user rest updated

/-- The system Turn injected when the Working Transcript is empty
(server.py lines 449-457). -/
def systemTurn : Turn :=
  ⟨"system",
   "Eres un asistente servicial. Responde siempre en el idioma que " ++
   "utilice el usuario y no incluyas traducciones a otros idiomas " ++
   "a menos que el usuario lo solicite explícitamente."⟩

/-- A chat request body: `message`, optional `attachments` (modelled by
their names, the only field the server reads), optional `model`
(server.py lines 429-434). -/
structure ChatRequest where
  message : String
  attachments : List String
  model : String
deriving DecidableEq, Repr

/-- Python `str.strip()` (server.py line 430): drop whitespace from both
ends of the string. -/
def pyStrip (s : String) : String :=
  ⟨((s.data.dropWhile Char.isWhitespace).reverse.dropWhile Char.isWhitespace).reverse⟩

/-- The attachment references appended to the user message
(server.py lines 437-441): one `"\n[adjunto: name]"` per attachment. -/
def attRefs : List String → String
  | [] => ""
  | n :: rest => "\n[adjunto: " ++ n ++ "]" ++ attRefs rest

/-- The `content` string built by `chat` (server.py lines 430, 436-441):
the stripped message followed by attachment references. -/
def contentOf (req : ChatRequest) : String :=
  pyStrip req.message ++ attRefs req.attachments

/-- Outcome of the outbound completion calls, an oracle for the
`try`/`except` ladder of server.py lines 469-496: the primary
chat-completions call succeeds with some content; or it fails and the
legacy call yields some (possibly empty) extracted content; or both fail
with their respective error strings. -/
inductive CompletionResult where
  | primaryOk (content : String)
  | legacyOk (extracted : String)
  | bothFail (legacyError : String) (firstError : String)
deriving DecidableEq, Repr

/-- The assistant content produced from a completion outcome
(server.py lines 481, 492-496): the primary content; or the legacy
content with the placeholder substituted when empty; or the synthesized
error string embedding both errors. -/
def assistantContentOf : CompletionResult → String
  | .primaryOk c => c
  | .legacyOk c => if c = "" then "No se recibió contenido del servicio LLM." else c
  | .bothFail e fe => "Error contacting LLM service: " ++ e ++ "\n" ++
      "(initial error: " ++ fe ++ ")"

/-- The Working Transcript after a successful chat turn
(server.py lines 449-459, 498): inject the system Turn when the
transcript is empty, then append the user Turn and the assistant Turn. -/
def historyAfter (hist : List Turn) (content assistant : String) : List Turn :=
  (if hist.isEmpty then [systemTurn] else hist) ++
    [⟨"user", content⟩, ⟨"assistant", assistant⟩]

/-- Pad a conversation list with empty conversations until index `i` is
in range (server.py lines 515-516: `while len(conversations) <= conv_idx`). -/
def padTo (cs : List Conversation) (i : Nat) : List Conversation :=
  cs ++ List.replicate (i + 1 - cs.length) ⟨[]⟩

/-- The persistence block of `chat` (server.py lines 500-519): when the
session is authenticated and the user record exists, choose the current
conversation index (allocating a fresh conversation when the pointer is
unset), pad the list so the index is in range, write the full transcript
at that index and save the user record. -/
def persistChat (users : List User) (sess : Session) (hist2 : List Turn) :
    List User × Session :=
  match sess.username with
  | none => (users, sess)
  | some uname =>
    match get_user users uname with
    | none => (users, sess)
    | some user =>
      match sess.current_conversation with
      | none =>
          let convIdx := user.conversations.length
          let convs2 := (padTo (user.conversations ++ [⟨[]⟩]) convIdx).set convIdx ⟨hist2⟩
          (update_user users { user with conversations := convs2 },
           { sess with current_conversation := some convIdx })
      | some i =>
          let convs2 := (padTo user.conversations i).set i ⟨hist2⟩
          (update_user users { user with conversations := convs2 }, sess)

/-- Responses of the chat endpoint: `{"message": ...}` with status 200,
or `{"error": ...}` with an error status (server.py lines 443, 520). -/
inductive ChatResult where
  | ok (message : String)
  | err (status : Nat) (error : String)
deriving DecidableEq, Repr

/-- The `/api/chat` handler (server.py lines 418-520), with the outbound
completion calls abstracted by the `comp` oracle.  Returns the JSON
response and the new server state. -/
def chat (s : ServerState) (req : ChatRequest) (comp : CompletionResult) :
    ChatResult × ServerState :=
  let content := contentOf req
  if content = "" then
    (ChatResult.err 400 "Message is empty", s)
  else
    let assistant := assistantContentOf comp
    let hist2 := historyAfter s.history content assistant
    let ps := persistChat s.users s.session hist2
    (ChatResult.ok assistant, ⟨hist2, ps.1, ps.2⟩)

/-- Responses of the conversation-select endpoint: the stored message
list, or `{"error": ...}` with an error status. -/
inductive SelectResult where
  | ok (messages : List Turn)
  | err (status : Nat) (error : String)
deriving DecidableEq, Repr

/-- The `GET /api/conversations/<int:index>` handler
(server.py lines 270-293): authentication and user-lookup checks, index
range check, then replace the Working Transcript with the stored
messages and set the session pointer. -/
def api_get_conversation (s : ServerState) (index : Int) :
    SelectResult × ServerState :=
  match s.session.username with
  | none => (SelectResult.err 401 "No autenticado", s)
  | some uname =>
    match get_user s.users uname with
    | none => (SelectResult.err 404 "Usuario no encontrado", s)
    | some user =>
      let conversations := user.conversations
      if index < 0 ∨ (conversations.length : Int) ≤ index then
        (SelectResult.err 404 "Índice de conversación inválido", s)
      else
        let i := index.toNat
        let messages := ((conversations.get? i).getD ⟨[]⟩).messages
        (SelectResult.ok messages,
         ⟨messages, s.users, { s.session with current_conversation := some i }⟩)

/-- Responses of the new-chat endpoint: `{"id": index}`, or an error. -/
inductive NewChatResult where
  | ok (id : Nat)
  | err (status : Nat) (error : String)
deriving DecidableEq, Repr

/-- The `POST /api/new_chat` handler (server.py lines 296-319): append an
empty conversation, persist, clear the Working Transcript, point the
session at the new index and return it. -/
def api_new_chat (s : ServerState) : NewChatResult × ServerState :=
  match s.session.username with
  | none => (NewChatResult.err 401 "No autenticado", s)
  | some uname =>
    match get_user s.users uname with
    | none => (NewChatResult.err 404 "Usuario no encontrado", s)
    | some user =>
      let conversations := user.conversations ++ [⟨[]⟩]
      let new_index := conversations.length - 1
      (NewChatResult.ok new_index,
       ⟨[], update_user s.users { user with conversations := conversations },
        { s.session with current_conversation := some new_index }⟩)

/-- One conversation summary: `{"id": idx, "title": title}`. -/
structure Summary where
  id : Nat
  title : String
deriving DecidableEq, Repr

/-- First line of a content string, truncated to 50 characters
(server.py line 264: `content.split("\n")[0][:50]`). -/
def firstLine50 (content : String) : String :=
  ⟨(content.data.takeWhile (fun c => c ≠ '\n')).take 50⟩

/-- Title of one conversation in the listing (server.py lines 259-266):
the first line of the first user message truncated to 50 characters,
with `"Nueva conversación"` when there is no user message, and the
positional fallback `title or f"Conversación {idx+1}"` when the derived
title is the empty (falsy) string. -/
def convTitle (idx : Nat) (convo : Conversation) : String :=
  let title :=
    match convo.messages.find? (fun m => m.role = "user") with
    | none => "Nueva conversación"
    | some msg => firstLine50 msg.content
  if title = "" then "Conversación " ++ toString (idx + 1) else title

/-- Responses of the conversation-listing endpoint. -/
inductive ListResult where
  | ok (conversations : List Summary)
  | err (status : Nat) (error : String)
deriving DecidableEq, Repr

/-- The `GET /api/conversations` handler (server.py lines 244-267):
one `{id, title}` summary per stored conversation, in storage order. -/
def api_conversations (s : ServerState) : ListResult :=
  match s.session.username with
  | none => ListResult.err 401 "No autenticado"
  | some uname =>
    match get_user s.users uname with
    | none => ListResult.err 404 "Usuario no encontrado"
    | some user =>
      ListResult.ok (user.conversations.enum.map fun p => ⟨p.1, convTitle p.1 p.2⟩)

/-- The stored message list of conversation `i` of user `uname`, read
back from the users store. -/
def persistedAt (users : List User) (uname : String) (i : Nat) :
    Option (List Turn) :=
  (get_user users uname).bind fun user =>
    (user.conversations.get? i).map Conversation.messages

/-- Whether a chat response is the `{"error": ...}` shape. -/
def ChatResult.isErr : ChatResult → Bool
  | .ok _ => false
  | .err _ _ => true

/-- Run a sequence of chat requests (each with its completion-oracle
outcome) through the server, threading the state. -/
def runChats (s : ServerState)
    (reqs : List (ChatRequest × CompletionResult)) : ServerState :=
  reqs.foldl (fun st rc => (chat st rc.1 rc.2).2) s

/-- Invariant of a chat session talking to one conversation: the client
is authenticated as `u`, the session pointer is `i`, the user record
exists, `i` is in range, and the stored conversation `i` holds exactly
the Working Transcript. -/
def ChatInv (u : String) (i : Nat) (s : ServerState) : Prop :=
  s.session.username = some u ∧ s.session.current_conversation = some i ∧
  ∃ user, get_user s.users u = some user ∧
    i < user.conversations.length ∧
    user.conversations.get? i = some ⟨s.history⟩

/-- Concrete user for witnesses: one empty stored conversation. -/
def wAlice : User := ⟨"alice", "ph", "user", [⟨[]⟩]⟩

/-- Concrete server state for witnesses: `alice` logged in, pointer at
her empty conversation 0, empty Working Transcript. -/
def wState : ServerState := ⟨[], [wAlice], ⟨some "alice", some 0⟩⟩

/-- Concrete request list for the message-count witness: two user turns,
one answered by the primary endpoint, one by the legacy fallback. -/
def wReqs : List (ChatRequest × CompletionResult) :=
  [(⟨"hola", [], "m"⟩, .primaryOk "respuesta"),
   (⟨"¿qué tal?", [], "m"⟩, .legacyOk "bien")]

/-- Concrete unauthenticated state for the empty-message counterexample. -/
def c4State : ServerState := ⟨[], [], ⟨none, none⟩⟩

/-- Concrete request whose `message` is empty but which carries one
attachment. -/
def c4Req : ChatRequest := ⟨"", ["doc.pdf"], "m"⟩

/-- Concrete state for the title counterexample: `bob` has one stored
conversation whose only message is a user Turn starting with a newline. -/
def c6State : ServerState :=
  ⟨[], [⟨"bob", "ph", "user", [⟨[⟨"user", "\nsecret"⟩]⟩]⟩], ⟨some "bob", none⟩⟩

/-- Concrete user for the listing witness: three conversations covering
the three title cases (multi-line user message, no user message, user
message whose first line is empty). -/
def w6User : User :=
  ⟨"carol", "ph", "user",
   [⟨[⟨"user", "Hello\nworld"⟩]⟩, ⟨[]⟩, ⟨[⟨"user", "\nhey"⟩]⟩]⟩

/-- Concrete server state for the listing witness. -/
def w6State : ServerState := ⟨[], [w6User], ⟨some "carol", none⟩⟩

/-- Concrete unauthenticated state for the no-session chat witness. -/
def c8State : ServerState := ⟨[], [wAlice], ⟨none, none⟩⟩

/-- Concrete state for the stale-pointer witness: `alice` has one stored
conversation but her session pointer is 3. -/
def c9State : ServerState := ⟨[], [wAlice], ⟨some "alice", some 3⟩⟩

/-! ### Helper lemmas about the store, padding and string building -/

theorem get_user_username : ∀ {users : List User} {uname : String} {v : User},
    get_user users uname = some v → v.username = uname := by
  intro users
  induction users with
  | nil => intro uname v h; simp [get_user] at h
  | cons u rest ih =>
    intro uname v h
    rw [get_user] at h
    by_cases hc : u.username = uname
    · rw [if_pos hc] at h
      exact (Option.some.inj h) ▸ hc
    · rw [if_neg hc] at h
      exact ih h

theorem get_user_update_self : ∀ (users : List User) (v : User),
    get_user (update_user users v) v.username = some v := by
  intro users
  induction users with
  | nil => intro v; simp [update_user, get_user]
  | cons u rest ih =>
    intro v
    rw [update_user]
    by_cases hc : u.username = v.username
    · rw [if_pos hc, get_user, if_pos rfl]
    · rw [if_neg hc, get_user, if_neg hc]
      exact ih v

theorem padTo_of_lt {cs : List Conversation} {i : Nat} (h : i < cs.length) :
    padTo cs i = cs := by
  unfold padTo
  rw [Nat.sub_eq_zero_of_le h]
  simp

theorem length_padTo (cs : List Conversation) (i : Nat) :
    (padTo cs i).length = max cs.length (i + 1) := by
  unfold padTo
  simp
  omega

theorem get?_set_self {l : List Conversation} {i : Nat} (h : i < l.length)
    (a : Conversation) : (l.set i a).get? i = some a := by
  simp [List.get?_eq_getElem?, List.getElem?_set_self, h]

theorem string_append_eq_empty {a b : String} :
    a ++ b = "" ↔ a = "" ∧ b = "" := by
  constructor
  · intro h
    have h2 := congrArg String.data h
    rw [String.data_append] at h2
    rcases List.append_eq_nil.mp h2 with ⟨ha, hb⟩
    exact ⟨String.ext ha, String.ext hb⟩
  · rintro ⟨rfl, rfl⟩; rfl

theorem attRefs_eq_empty {l : List String} : attRefs l = "" ↔ l = [] := by
  cases l with
  | nil => simp [attRefs]
  | cons n rest =>
    simp only [attRefs]
    constructor
    · intro h
      rcases string_append_eq_empty.mp h with ⟨h1, -⟩
      rcases string_append_eq_empty.mp h1 with ⟨h2, -⟩
      rcases string_append_eq_empty.mp h2 with ⟨h3, -⟩
      simp at h3
    · intro h; cases h

theorem contentOf_eq_empty {req : ChatRequest} :
    contentOf req = "" ↔ pyStrip req.message = "" ∧ req.attachments = [] := by
  unfold contentOf
  rw [string_append_eq_empty, attRefs_eq_empty]

theorem conversacion_ne_nueva (t : String) :
    "Conversación " ++ t ≠ "Nueva conversación" := by
  intro h
  have h2 := congrArg String.data h
  rw [String.data_append] at h2
  simp at h2

/-! ### Helper lemmas about `persistChat` and `chat` -/

theorem persistChat_unauth {users : List User} {sess : Session}
    {hist2 : List Turn} (hu : sess.username = none) :
    persistChat users sess hist2 = (users, sess) := by
  simp [persistChat, hu]

theorem persistChat_some_ptr {users : List User} {sess : Session}
    {hist2 : List Turn} {u : String} {user : User} {i : Nat}
    (hu : sess.username = some u) (hg : get_user users u = some user)
    (hp : sess.current_conversation = some i) :
    persistChat users sess hist2 =
      (update_user users
        { user with conversations := (padTo user.conversations i).set i ⟨hist2⟩ },
       sess) := by
  simp [persistChat, hu, hg, hp]

theorem persistChat_none_ptr {users : List User} {sess : Session}
    {hist2 : List Turn} {u : String} {user : User}
    (hu : sess.username = some u) (hg : get_user users u = some user)
    (hp : sess.current_conversation = none) :
    persistChat users sess hist2 =
      (update_user users
        { user with conversations :=
            (user.conversations ++ [(⟨[]⟩ : Conversation)]).set user.conversations.length ⟨hist2⟩ },
       { sess with current_conversation := some user.conversations.length }) := by
  have hlt : user.conversations.length <
      (user.conversations ++ [(⟨[]⟩ : Conversation)]).length := by simp
  simp [persistChat, hu, hg, hp, padTo_of_lt hlt]

theorem persistChat_persistedAt {users : List User} {sess : Session}
    {hist2 : List Turn} {u : String} {user : User}
    (hu : sess.username = some u) (hg : get_user users u = some user) :
    persistedAt (persistChat users sess hist2).1 u
      (sess.current_conversation.getD user.conversations.length) = some hist2 := by
  have husr := get_user_username hg
  subst husr
  cases hp : sess.current_conversation with
  | none =>
    rw [persistChat_none_ptr hu hg hp]
    unfold persistedAt
    rw [get_user_update_self users
      { user with conversations :=
          ((user.conversations ++ [(⟨[]⟩ : Conversation)]).set user.conversations.length ⟨hist2⟩) }]
    have hlt : user.conversations.length <
        (user.conversations ++ [(⟨[]⟩ : Conversation)]).length := by simp
    simp [List.getElem?_set_self, hlt]
  | some i =>
    rw [persistChat_some_ptr hu hg hp]
    unfold persistedAt
    rw [get_user_update_self users
      { user with conversations := ((padTo user.conversations i).set i ⟨hist2⟩) }]
    have hlt : i < (padTo user.conversations i).length := by
      rw [length_padTo]; omega
    simp [List.getElem?_set_self, hlt]

theorem chat_of_ne {s : ServerState} {req : ChatRequest}
    {comp : CompletionResult} (h : contentOf req ≠ "") :
    chat s req comp =
      (ChatResult.ok (assistantContentOf comp),
       ⟨historyAfter s.history (contentOf req) (assistantContentOf comp),
        (persistChat s.users s.session
          (historyAfter s.history (contentOf req) (assistantContentOf comp))).1,
        (persistChat s.users s.session
          (historyAfter s.history (contentOf req) (assistantContentOf comp))).2⟩) := by
  rw [chat, if_neg h]

theorem chat_of_empty {s : ServerState} {req : ChatRequest}
    {comp : CompletionResult} (h : contentOf req = "") :
    chat s req comp = (ChatResult.err 400 "Message is empty", s) := by
  rw [chat, if_pos h]

/-! ### The chat-session invariant and its preservation -/

theorem ChatInv_persisted {u : String} {i : Nat} {s : ServerState}
    (h : ChatInv u i s) : persistedAt s.users u i = some s.history := by
  obtain ⟨hu, hp, user, hg, hlen, hconv⟩ := h
  rw [List.get?_eq_getElem?] at hconv
  simp [persistedAt, hg, hconv]

theorem chat_step (u : String) (i : Nat) (s : ServerState) (req : ChatRequest)
    (comp : CompletionResult) (h : ChatInv u i s) (hc : contentOf req ≠ "") :
    ChatInv u i (chat s req comp).2 ∧
    (chat s req comp).2.history =
      historyAfter s.history (contentOf req) (assistantContentOf comp) := by
  obtain ⟨hu, hp, user, hg, hlen, hconv⟩ := h
  have husr := get_user_username hg
  subst husr
  rw [chat_of_ne hc, persistChat_some_ptr hu hg hp]
  refine ⟨⟨hu, hp, ?_⟩, rfl⟩
  refine ⟨{ user with conversations :=
      ((padTo user.conversations i).set i
        ⟨historyAfter s.history (contentOf req) (assistantContentOf comp)⟩) },
    ?_, ?_, ?_⟩
  · exact get_user_update_self s.users _
  · rw [padTo_of_lt hlen]
    simpa using hlen
  · rw [padTo_of_lt hlen]
    exact get?_set_self hlen _

theorem length_odd_not_isEmpty {l : List Turn} {k : Nat}
    (h : l.length = 2 * k + 1) : l.isEmpty = false := by
  cases l with
  | nil => simp at h
  | cons a t => rfl

theorem historyAfter_length_of_ne {hist : List Turn}
    (h : hist.isEmpty = false) (c a : String) :
    (historyAfter hist c a).length = hist.length + 2 := by
  simp [historyAfter, h]

theorem runChats_inv_odd (u : String) (i : Nat) :
    ∀ (reqs : List (ChatRequest × CompletionResult)) (s : ServerState) (k : Nat),
      ChatInv u i s → (∀ rc ∈ reqs, contentOf rc.1 ≠ "") →
      s.history.length = 2 * k + 1 →
      ChatInv u i (runChats s reqs) ∧
        (runChats s reqs).history.length = 2 * (k + reqs.length) + 1 := by
  intro reqs
  induction reqs with
  | nil =>
    intro s k h _ hk
    exact ⟨h, by simpa [runChats] using hk⟩
  | cons rc rest ih =>
    intro s k h hne hk
    have hc : contentOf rc.1 ≠ "" := hne rc (List.mem_cons_self rc rest)
    obtain ⟨h1, h2⟩ := chat_step u i s rc.1 rc.2 h hc
    have hlen2 : (chat s rc.1 rc.2).2.history.length = 2 * (k + 1) + 1 := by
      rw [h2, historyAfter_length_of_ne (length_odd_not_isEmpty hk), hk]
      omega
    have hmain := ih (chat s rc.1 rc.2).2 (k + 1) h1
      (fun p hq => hne p (List.mem_cons_of_mem rc hq)) hlen2
    have hrw : runChats s (rc :: rest) = runChats (chat s rc.1 rc.2).2 rest := rfl
    refine ⟨by rw [hrw]; exact hmain.1, ?_⟩
    rw [hrw, hmain.2]
    simp only [List.length_cons]
    omega

theorem get?_some_lt {l : List Conversation} {n : Nat} {a : Conversation}
    (h : l.get? n = some a) : n < l.length := by
  rw [List.get?_eq_getElem?] at h
  by_contra hc
  rw [List.getElem?_eq_none (Nat.le_of_not_lt hc)] at h
  cases h

theorem api_get_conversation_ok {s : ServerState} {u : String} {user : User}
    {i : Nat} {msgs : List Turn}
    (hu : s.session.username = some u)
    (hg : get_user s.users u = some user)
    (hidx : user.conversations.get? i = some ⟨msgs⟩) :
    api_get_conversation s (i : Int) =
      (SelectResult.ok msgs,
       ⟨msgs, s.users, { s.session with current_conversation := some i }⟩) := by
  have hlt := get?_some_lt hidx
  have hrange : ¬((i : Int) < 0 ∨ (user.conversations.length : Int) ≤ (i : Int)) := by
    push_neg
    exact ⟨Int.natCast_nonneg i, by exact_mod_cast hlt⟩
  simp only [api_get_conversation, hu, hg]
  rw [if_neg hrange]
  rw [List.get?_eq_getElem?] at hidx
  simp [hidx]

theorem api_new_chat_eq {s : ServerState} {u : String} {user : User}
    (hu : s.session.username = some u)
    (hg : get_user s.users u = some user) :
    api_new_chat s =
      (NewChatResult.ok user.conversations.length,
       ⟨[], update_user s.users
          { user with conversations := user.conversations ++ [⟨[]⟩] },
        { s.session with
            current_conversation := some user.conversations.length }⟩) := by
  simp [api_new_chat, hu, hg]

/-! ### The claims -/

/-- C1: for every sequence of N user turns sent through the chat
operation into a single conversation starting from an empty Working
Transcript, the persisted conversation holds exactly the final
transcript and its message count equals 2N + 1 when N > 0 (one system
turn before the first user turn, one assistant turn after each user
turn) and 0 when N = 0. -/
theorem C1_message_count
    (s : ServerState) (u : String) (i : Nat) (user : User)
    (reqs : List (ChatRequest × CompletionResult))
    (hu : s.session.username = some u)
    (hp : s.session.current_conversation = some i)
    (hg : get_user s.users u = some user)
    (hlen : i < user.conversations.length)
    (hconv : user.conversations.get? i = some ⟨[]⟩)
    (hhist : s.history = [])
    (hne : ∀ rc ∈ reqs, contentOf rc.1 ≠ "") :
    persistedAt (runChats s reqs).users u i = some (runChats s reqs).history ∧
    (runChats s reqs).history.length =
      (if reqs.length = 0 then 0 else 2 * reqs.length + 1) := by
  have hinv : ChatInv u i s := ⟨hu, hp, user, hg, hlen, by rw [hconv, hhist]⟩
  cases reqs with
  | nil =>
    refine ⟨ChatInv_persisted hinv, ?_⟩
    simp [runChats, hhist]
  | cons rc rest =>
    have hc := hne rc (List.mem_cons_self rc rest)
    obtain ⟨h1, h2⟩ := chat_step u i s rc.1 rc.2 hinv hc
    have hlen1 : (chat s rc.1 rc.2).2.history.length = 2 * 1 + 1 := by
      rw [h2, hhist]
      simp [historyAfter]
    have hmain := runChats_inv_odd u i rest (chat s rc.1 rc.2).2 1 h1
      (fun p hq => hne p (List.mem_cons_of_mem rc hq)) hlen1
    have hrw : runChats s (rc :: rest) = runChats (chat s rc.1 rc.2).2 rest := rfl
    rw [hrw]
    refine ⟨ChatInv_persisted hmain.1, ?_⟩
    rw [hmain.2]
    have hne0 : (rc :: rest).length ≠ 0 := by simp
    rw [if_neg hne0]
    simp only [List.length_cons]
    omega

/-- Witness for C1 at a concrete input: `alice` with one empty
conversation, two chat turns; the persisted conversation holds the
final transcript and has 2·2 + 1 = 5 messages. -/
theorem C1_message_count_witness :
    wState.session.username = some "alice" ∧
    wState.session.current_conversation = some 0 ∧
    get_user wState.users "alice" = some wAlice ∧
    (0 < wAlice.conversations.length) ∧
    wState.history = [] ∧
    (persistedAt (runChats wState wReqs).users "alice" 0 =
        some (runChats wState wReqs).history ∧
      (runChats wState wReqs).history.length =
        (if wReqs.length = 0 then 0 else 2 * wReqs.length + 1)) :=
  ⟨rfl, rfl, by decide, by decide, rfl,
   C1_message_count wState "alice" 0 wAlice wReqs rfl rfl (by decide) (by decide)
     (by decide) rfl (by decide)⟩

/-- C2: when both the primary completion call and the legacy fallback
fail, the chat operation still returns a success response whose
assistant message is a synthesized error string containing both the
fallback error and the original primary error, and that string is
appended to the transcript and persisted as the assistant's Turn. -/
theorem C2_both_fail
    (s : ServerState) (req : ChatRequest) (e fe : String)
    (u : String) (user : User)
    (hu : s.session.username = some u)
    (hg : get_user s.users u = some user)
    (hc : contentOf req ≠ "") :
    (chat s req (.bothFail e fe)).1 =
      ChatResult.ok (assistantContentOf (.bothFail e fe)) ∧
    (∃ a b, assistantContentOf (.bothFail e fe) = a ++ e ++ b) ∧
    (∃ a b, assistantContentOf (.bothFail e fe) = a ++ fe ++ b) ∧
    (chat s req (.bothFail e fe)).2.history.getLast? =
      some ⟨"assistant", assistantContentOf (.bothFail e fe)⟩ ∧
    persistedAt (chat s req (.bothFail e fe)).2.users u
        (s.session.current_conversation.getD user.conversations.length) =
      some (chat s req (.bothFail e fe)).2.history := by
  rw [chat_of_ne hc]
  refine ⟨rfl, ?_, ?_, ?_, ?_⟩
  · refine ⟨"Error contacting LLM service: ",
      "\n" ++ "(initial error: " ++ fe ++ ")", ?_⟩
    apply String.ext
    simp [assistantContentOf, String.data_append]
  · refine ⟨"Error contacting LLM service: " ++ e ++ "\n" ++ "(initial error: ",
      ")", ?_⟩
    apply String.ext
    simp [assistantContentOf, String.data_append]
  · unfold historyAfter
    simp [List.getLast?_append]
  · exact persistChat_persistedAt hu hg

/-- Witness for C2 at a concrete input: both endpoints fail with errors
`"E2"` (legacy) and `"E1"` (primary) on a chat from `alice`. -/
theorem C2_both_fail_witness :
    wState.session.username = some "alice" ∧
    get_user wState.users "alice" = some wAlice ∧
    contentOf ⟨"hola", [], "m"⟩ ≠ "" ∧
    ((chat wState ⟨"hola", [], "m"⟩ (.bothFail "E2" "E1")).1 =
      ChatResult.ok (assistantContentOf (.bothFail "E2" "E1")) ∧
    (∃ a b, assistantContentOf (.bothFail "E2" "E1") = a ++ "E2" ++ b) ∧
    (∃ a b, assistantContentOf (.bothFail "E2" "E1") = a ++ "E1" ++ b) ∧
    (chat wState ⟨"hola", [], "m"⟩ (.bothFail "E2" "E1")).2.history.getLast? =
      some ⟨"assistant", assistantContentOf (.bothFail "E2" "E1")⟩ ∧
    persistedAt (chat wState ⟨"hola", [], "m"⟩ (.bothFail "E2" "E1")).2.users "alice"
        (wState.session.current_conversation.getD wAlice.conversations.length) =
      some (chat wState ⟨"hola", [], "m"⟩ (.bothFail "E2" "E1")).2.history) :=
  ⟨rfl, by decide, by decide,
   C2_both_fail wState ⟨"hola", [], "m"⟩ "E2" "E1" "alice" wAlice rfl
     (by decide) (by decide)⟩

/-- C3: for an authenticated user whose record exists, `select` with an
in-range index replaces the entire Working Transcript with the stored
messages of that conversation and points the session at it; any
out-of-range index (negative or too large) fails with the NotFound
error and leaves the whole state, the Working Transcript included,
unchanged. -/
theorem C3_select_spec
    (s : ServerState) (u : String) (user : User)
    (hu : s.session.username = some u)
    (hg : get_user s.users u = some user) :
    (∀ (index : Int) (msgs : List Turn), 0 ≤ index →
      user.conversations.get? index.toNat = some ⟨msgs⟩ →
      api_get_conversation s index =
        (SelectResult.ok msgs,
         ⟨msgs, s.users,
          { s.session with current_conversation := some index.toNat }⟩)) ∧
    (∀ index : Int, index < 0 ∨ (user.conversations.length : Int) ≤ index →
      api_get_conversation s index =
        (SelectResult.err 404 "Índice de conversación inválido", s)) := by
  constructor
  · intro index msgs h0 hidx
    have hlt : index.toNat < user.conversations.length := get?_some_lt hidx
    have hrange : ¬(index < 0 ∨ (user.conversations.length : Int) ≤ index) := by
      push_neg
      refine ⟨h0, ?_⟩
      rw [← Int.toNat_of_nonneg h0]
      exact_mod_cast hlt
    simp only [api_get_conversation, hu, hg]
    rw [if_neg hrange]
    rw [List.get?_eq_getElem?] at hidx
    simp [hidx]
  · intro index hbad
    simp only [api_get_conversation, hu, hg]
    rw [if_pos hbad]

/-- Witness for C3 at a concrete input: selecting `alice`'s
conversation 0 succeeds and loads its (empty) messages; selecting `-1`
and `5` fail with the NotFound error and leave the state unchanged. -/
theorem C3_select_spec_witness :
    wState.session.username = some "alice" ∧
    get_user wState.users "alice" = some wAlice ∧
    api_get_conversation wState 0 =
      (SelectResult.ok [],
       ⟨[], wState.users,
        { wState.session with current_conversation := some 0 }⟩) ∧
    api_get_conversation wState (-1) =
      (SelectResult.err 404 "Índice de conversación inválido", wState) ∧
    api_get_conversation wState 5 =
      (SelectResult.err 404 "Índice de conversación inválido", wState) :=
  ⟨rfl, by decide,
   (C3_select_spec wState "alice" wAlice rfl (by decide)).1 0 [] (by decide)
     (by decide),
   (C3_select_spec wState "alice" wAlice rfl (by decide)).2 (-1)
     (Or.inl (by decide)),
   (C3_select_spec wState "alice" wAlice rfl (by decide)).2 5
     (Or.inr (by decide))⟩

/-- C4 counterexample: a request whose `message` field is the empty
string but which carries one attachment is answered with the success
payload `{message}` — not with an error payload — because the emptiness
check is applied to the combined content, which the attachment
reference makes non-empty. -/
theorem C4_counterexample :
    pyStrip c4Req.message = "" ∧
    c4Req.attachments ≠ [] ∧
    (chat c4State c4Req (.primaryOk "hola")).1 = ChatResult.ok "hola" ∧
    ((chat c4State c4Req (.primaryOk "hola")).1).isErr = false := by
  decide

/-- C4 (amended): the chat operation returns the error payload exactly
when the whitespace-stripped message is empty AND the attachments list
is empty (each attachment reference makes the combined content
non-empty); in the error case the response is
`{error: "Message is empty"}` with status 400 and the state is
untouched, and otherwise the response is `{message}` carrying the
assistant reply. -/
theorem C4_empty_message
    (s : ServerState) (req : ChatRequest) (comp : CompletionResult) :
    ((chat s req comp).1.isErr = true ↔
      (pyStrip req.message = "" ∧ req.attachments = [])) ∧
    (pyStrip req.message = "" ∧ req.attachments = [] →
      chat s req comp = (ChatResult.err 400 "Message is empty", s)) ∧
    (¬(pyStrip req.message = "" ∧ req.attachments = []) →
      (chat s req comp).1 = ChatResult.ok (assistantContentOf comp)) := by
  by_cases hc : contentOf req = ""
  · have h2 := contentOf_eq_empty.mp hc
    rw [chat_of_empty hc]
    exact ⟨by simp [ChatResult.isErr, h2], fun _ => rfl, fun hn => absurd h2 hn⟩
  · have h2 : ¬(pyStrip req.message = "" ∧ req.attachments = []) :=
      fun h => hc (contentOf_eq_empty.mpr h)
    rw [chat_of_ne hc]
    exact ⟨by simp [ChatResult.isErr, h2], fun h => absurd h h2, fun _ => rfl⟩

/-- Witness for C4 (amended) at concrete inputs: a non-empty message is
answered with the assistant reply, and a whitespace-only message with
no attachments is answered with the 400 error payload. -/
theorem C4_empty_message_witness :
    (¬(pyStrip ("hola" : String) = "" ∧ ([] : List String) = [])) ∧
    (chat c4State ⟨"hola", [], "m"⟩ (.primaryOk "x")).1 =
      ChatResult.ok (assistantContentOf (.primaryOk "x")) ∧
    (pyStrip ("  " : String) = "" ∧ ([] : List String) = []) ∧
    chat c4State ⟨"  ", [], "m"⟩ (.primaryOk "x") =
      (ChatResult.err 400 "Message is empty", c4State) :=
  ⟨by decide,
   (C4_empty_message c4State ⟨"hola", [], "m"⟩ (.primaryOk "x")).2.2 (by decide),
   by decide,
   (C4_empty_message c4State ⟨"  ", [], "m"⟩ (.primaryOk "x")).2.1 (by decide)⟩

/-- C5: `create` appends an empty Conversation to the user's stored
sequence, persists it immediately, clears the Working Transcript, sets
the session pointer to the new index and returns `len - 1`; two creates
in a row yield two distinct empty conversations at consecutive indices,
and selecting either returns an empty message list. -/
theorem C5_create_spec
    (s : ServerState) (u : String) (user : User)
    (hu : s.session.username = some u)
    (hg : get_user s.users u = some user) :
    (api_new_chat s).1 = NewChatResult.ok user.conversations.length ∧
    (api_new_chat s).2.history = [] ∧
    (api_new_chat s).2.session.current_conversation =
      some user.conversations.length ∧
    persistedAt (api_new_chat s).2.users u user.conversations.length =
      some [] ∧
    (api_new_chat (api_new_chat s).2).1 =
      NewChatResult.ok (user.conversations.length + 1) ∧
    persistedAt (api_new_chat (api_new_chat s).2).2.users u
        user.conversations.length = some [] ∧
    persistedAt (api_new_chat (api_new_chat s).2).2.users u
        (user.conversations.length + 1) = some [] ∧
    (api_get_conversation (api_new_chat (api_new_chat s).2).2
        ((user.conversations.length : Nat) : Int)).1 = SelectResult.ok [] ∧
    (api_get_conversation (api_new_chat (api_new_chat s).2).2
        ((user.conversations.length + 1 : Nat) : Int)).1 = SelectResult.ok [] := by
  have husr := get_user_username hg
  subst husr
  have h1 := api_new_chat_eq hu hg
  have hg1 : get_user (update_user s.users
      { user with conversations := user.conversations ++ [⟨[]⟩] })
      user.username =
      some { user with conversations := user.conversations ++ [⟨[]⟩] } :=
    get_user_update_self s.users _
  have e1 : (api_new_chat s).2 =
      (⟨[], update_user s.users
          { user with conversations := user.conversations ++ [⟨[]⟩] },
        { s.session with
            current_conversation := some user.conversations.length }⟩ :
        ServerState) := by rw [h1]
  have e1a : (api_new_chat s).1 = NewChatResult.ok user.conversations.length := by
    rw [h1]
  have h2 := api_new_chat_eq
    (s := ⟨[], update_user s.users
        { user with conversations := user.conversations ++ [⟨[]⟩] },
      { s.session with
          current_conversation := some user.conversations.length }⟩)
    hu hg1
  have e2 : (api_new_chat
      (⟨[], update_user s.users
          { user with conversations := user.conversations ++ [⟨[]⟩] },
        { s.session with
            current_conversation := some user.conversations.length }⟩ :
        ServerState)).2 =
      (⟨[], update_user (update_user s.users
            { user with conversations := user.conversations ++ [⟨[]⟩] })
          { user with conversations :=
              (user.conversations ++ [⟨[]⟩]) ++ [⟨[]⟩] },
        { s.session with
            current_conversation := some (user.conversations.length + 1) }⟩ :
        ServerState) := by
    rw [h2]
    simp
  have e2a : (api_new_chat
      (⟨[], update_user s.users
          { user with conversations := user.conversations ++ [⟨[]⟩] },
        { s.session with
            current_conversation := some user.conversations.length }⟩ :
        ServerState)).1 = NewChatResult.ok (user.conversations.length + 1) := by
    rw [h2]
    simp
  have hg2 : get_user (update_user (update_user s.users
        { user with conversations := user.conversations ++ [⟨[]⟩] })
      { user with conversations :=
          (user.conversations ++ [⟨[]⟩]) ++ [⟨[]⟩] }) user.username =
      some { user with conversations :=
          (user.conversations ++ [⟨[]⟩]) ++ [⟨[]⟩] } :=
    get_user_update_self _ _
  have hstored1 : ({ user with conversations :=
      (user.conversations ++ [⟨[]⟩]) ++ [⟨[]⟩] } : User).conversations.get?
      user.conversations.length = some ⟨[]⟩ := by
    rw [List.get?_eq_getElem?]
    have hlt : user.conversations.length <
        (user.conversations ++ [(⟨[]⟩ : Conversation)]).length := by simp
    rw [List.getElem?_append_left hlt]
    exact List.getElem?_concat_length _ _
  have hstored2 : ({ user with conversations :=
      (user.conversations ++ [⟨[]⟩]) ++ [⟨[]⟩] } : User).conversations.get?
      (user.conversations.length + 1) = some ⟨[]⟩ := by
    have hlen : (user.conversations ++ [(⟨[]⟩ : Conversation)]).length =
        user.conversations.length + 1 := by simp
    rw [List.get?_eq_getElem?, show user.conversations.length + 1 =
        (user.conversations ++ [(⟨[]⟩ : Conversation)]).length from hlen.symm]
    exact List.getElem?_concat_length _ _
  refine ⟨e1a, ?_, ?_, ?_, ?_, ?_, ?_, ?_, ?_⟩
  · rw [e1]
  · rw [e1]
  · rw [e1]
    unfold persistedAt
    rw [show (⟨[], update_user s.users
          { user with conversations := user.conversations ++ [⟨[]⟩] },
        { s.session with
            current_conversation := some user.conversations.length }⟩ :
        ServerState).users = update_user s.users
          { user with conversations := user.conversations ++ [⟨[]⟩] } from rfl]
    rw [hg1]
    simp [List.getElem?_concat_length]
  · rw [e1, e2a]
  · rw [e1, e2]
    unfold persistedAt
    rw [show (⟨[], update_user (update_user s.users
            { user with conversations := user.conversations ++ [⟨[]⟩] })
          { user with conversations :=
              (user.conversations ++ [⟨[]⟩]) ++ [⟨[]⟩] },
        { s.session with
            current_conversation := some (user.conversations.length + 1) }⟩ :
        ServerState).users = update_user (update_user s.users
            { user with conversations := user.conversations ++ [⟨[]⟩] })
          { user with conversations :=
              (user.conversations ++ [⟨[]⟩]) ++ [⟨[]⟩] } from rfl]
    rw [hg2]
    rw [List.get?_eq_getElem?] at hstored1
    simp only [List.append_assoc, List.singleton_append] at hstored1 ⊢
    simp [hstored1]
  · rw [e1, e2]
    unfold persistedAt
    rw [show (⟨[], update_user (update_user s.users
            { user with conversations := user.conversations ++ [⟨[]⟩] })
          { user with conversations :=
              (user.conversations ++ [⟨[]⟩]) ++ [⟨[]⟩] },
        { s.session with
            current_conversation := some (user.conversations.length + 1) }⟩ :
        ServerState).users = update_user (update_user s.users
            { user with conversations := user.conversations ++ [⟨[]⟩] })
          { user with conversations :=
              (user.conversations ++ [⟨[]⟩]) ++ [⟨[]⟩] } from rfl]
    rw [hg2]
    rw [List.get?_eq_getElem?] at hstored2
    simp only [List.append_assoc, List.singleton_append] at hstored2 ⊢
    simp [hstored2]
  · rw [e1, e2]
    rw [api_get_conversation_ok
      (show (⟨[], update_user (update_user s.users
            { user with conversations := user.conversations ++ [⟨[]⟩] })
          { user with conversations :=
              (user.conversations ++ [⟨[]⟩]) ++ [⟨[]⟩] },
        { s.session with
            current_conversation := some (user.conversations.length + 1) }⟩ :
        ServerState).session.username = some user.username from hu)
      hg2 hstored1]
  · rw [e1, e2]
    rw [api_get_conversation_ok
      (show (⟨[], update_user (update_user s.users
            { user with conversations := user.conversations ++ [⟨[]⟩] })
          { user with conversations :=
              (user.conversations ++ [⟨[]⟩]) ++ [⟨[]⟩] },
        { s.session with
            current_conversation := some (user.conversations.length + 1) }⟩ :
        ServerState).session.username = some user.username from hu)
      hg2 hstored2]

/-- Witness for C5 at a concrete input: two creates from `alice`'s
state return indices 1 and 2, persist empty conversations there, and
selecting either yields the empty message list. -/
theorem C5_create_spec_witness :
    wState.session.username = some "alice" ∧
    get_user wState.users "alice" = some wAlice ∧
    ((api_new_chat wState).1 = NewChatResult.ok wAlice.conversations.length ∧
    (api_new_chat wState).2.history = [] ∧
    (api_new_chat wState).2.session.current_conversation =
      some wAlice.conversations.length ∧
    persistedAt (api_new_chat wState).2.users "alice"
        wAlice.conversations.length = some [] ∧
    (api_new_chat (api_new_chat wState).2).1 =
      NewChatResult.ok (wAlice.conversations.length + 1) ∧
    persistedAt (api_new_chat (api_new_chat wState).2).2.users "alice"
        wAlice.conversations.length = some [] ∧
    persistedAt (api_new_chat (api_new_chat wState).2).2.users "alice"
        (wAlice.conversations.length + 1) = some [] ∧
    (api_get_conversation (api_new_chat (api_new_chat wState).2).2
        ((wAlice.conversations.length : Nat) : Int)).1 = SelectResult.ok [] ∧
    (api_get_conversation (api_new_chat (api_new_chat wState).2).2
        ((wAlice.conversations.length + 1 : Nat) : Int)).1 =
      SelectResult.ok []) :=
  ⟨rfl, by decide, C5_create_spec wState "alice" wAlice rfl (by decide)⟩

/-- C6 counterexample: for a conversation whose first user Turn is
`"\nsecret"`, the first line (truncated to 50 characters) is the empty
string, but the listing returns the positional title
`"Conversación 1"`, not that first line — so the title is not always
the first line of the first user Turn. -/
theorem C6_counterexample :
    ((⟨[⟨"user", "\nsecret"⟩]⟩ : Conversation).messages.find?
        (fun m => m.role = "user") = some ⟨"user", "\nsecret"⟩) ∧
    api_conversations c6State = ListResult.ok [⟨0, "Conversación 1"⟩] ∧
    "Conversación 1" ≠ firstLine50 "\nsecret" := by
  decide

/-- C6 (amended): `list` returns one `{index, title}` summary per stored
conversation in storage order, where the title is the first line of the
first user Turn truncated to 50 characters when that truncated first
line is non-empty; when it is empty (a falsy string) the positional
title `"Conversación {index+1}"` is used; and the default
`"Nueva conversación"` is used when the conversation has no user Turn. -/
theorem C6_list_titles
    (s : ServerState) (u : String) (user : User)
    (hu : s.session.username = some u)
    (hg : get_user s.users u = some user) :
    ∃ l, api_conversations s = ListResult.ok l ∧
      l.length = user.conversations.length ∧
      ∀ i convo, user.conversations.get? i = some convo →
        l.get? i = some ⟨i,
          match convo.messages.find? (fun m => m.role = "user") with
          | none => "Nueva conversación"
          | some msg =>
              if firstLine50 msg.content = "" then
                "Conversación " ++ toString (i + 1)
              else firstLine50 msg.content⟩ := by
  refine ⟨user.conversations.enum.map fun p => ⟨p.1, convTitle p.1 p.2⟩,
    ?_, ?_, ?_⟩
  · simp only [api_conversations, hu, hg]
  · simp
  · intro i convo hidx
    rw [List.get?_map, List.enum_get?, hidx]
    cases hfind : convo.messages.find? (fun m => m.role = "user") with
    | none =>
        simp [convTitle, hfind]
        intro hcon
        exact absurd hcon (by decide)
    | some msg => simp [convTitle, hfind]

/-- Witness for C6 (amended) at a concrete input: `carol` has three
conversations exercising all three title cases. -/
theorem C6_list_titles_witness :
    get_user w6State.users "carol" = some w6User ∧
    ∃ l, api_conversations w6State = ListResult.ok l ∧
      l.length = w6User.conversations.length ∧
      ∀ i convo, w6User.conversations.get? i = some convo →
        l.get? i = some ⟨i,
          match convo.messages.find? (fun m => m.role = "user") with
          | none => "Nueva conversación"
          | some msg =>
              if firstLine50 msg.content = "" then
                "Conversación " ++ toString (i + 1)
              else firstLine50 msg.content⟩ :=
  ⟨by decide, C6_list_titles w6State "carol" w6User rfl (by decide)⟩

/-- C7: round-trip — after a chat turn persists the transcript into the
current conversation, immediately reloading that conversation via
`select` returns exactly the persisted transcript (identical Turn role
and content values) and loads it back into the Working Transcript. -/
theorem C7_roundtrip
    (s : ServerState) (req : ChatRequest) (comp : CompletionResult)
    (u : String) (user : User)
    (hu : s.session.username = some u)
    (hg : get_user s.users u = some user)
    (hc : contentOf req ≠ "") :
    (api_get_conversation (chat s req comp).2
        ((s.session.current_conversation.getD user.conversations.length : Nat) :
          Int)).1 =
      SelectResult.ok (chat s req comp).2.history ∧
    (api_get_conversation (chat s req comp).2
        ((s.session.current_conversation.getD user.conversations.length : Nat) :
          Int)).2.history =
      (chat s req comp).2.history := by
  have husr := get_user_username hg
  subst husr
  rw [chat_of_ne hc]
  cases hp : s.session.current_conversation with
  | none =>
    rw [persistChat_none_ptr hu hg hp]
    have hlt : user.conversations.length <
        (user.conversations ++ [(⟨[]⟩ : Conversation)]).length := by simp
    have hidx : ({ user with conversations :=
        ((user.conversations ++ [(⟨[]⟩ : Conversation)]).set
          user.conversations.length
          ⟨historyAfter s.history (contentOf req) (assistantContentOf comp)⟩) } :
        User).conversations.get? user.conversations.length =
        some ⟨historyAfter s.history (contentOf req) (assistantContentOf comp)⟩ :=
      get?_set_self hlt _
    rw [show (Option.getD (none : Option Nat) user.conversations.length) =
        user.conversations.length from rfl]
    rw [api_get_conversation_ok
      (show (⟨historyAfter s.history (contentOf req) (assistantContentOf comp),
          update_user s.users
            { user with conversations :=
                ((user.conversations ++ [(⟨[]⟩ : Conversation)]).set
                  user.conversations.length
                  ⟨historyAfter s.history (contentOf req)
                    (assistantContentOf comp)⟩) },
          { s.session with
              current_conversation := some user.conversations.length }⟩ :
          ServerState).session.username = some user.username from hu)
      (get_user_update_self s.users _) hidx]
    exact ⟨rfl, rfl⟩
  | some i =>
    rw [persistChat_some_ptr hu hg hp]
    have hlt : i < (padTo user.conversations i).length := by
      rw [length_padTo]; omega
    have hidx : ({ user with conversations :=
        ((padTo user.conversations i).set i
          ⟨historyAfter s.history (contentOf req) (assistantContentOf comp)⟩) } :
        User).conversations.get? i =
        some ⟨historyAfter s.history (contentOf req) (assistantContentOf comp)⟩ :=
      get?_set_self hlt _
    rw [show (Option.getD (some i) user.conversations.length) = i from rfl]
    rw [api_get_conversation_ok
      (show (⟨historyAfter s.history (contentOf req) (assistantContentOf comp),
          update_user s.users
            { user with conversations :=
                ((padTo user.conversations i).set i
                  ⟨historyAfter s.history (contentOf req)
                    (assistantContentOf comp)⟩) },
          s.session⟩ : ServerState).session.username = some user.username
        from hu)
      (get_user_update_self s.users _) hidx]
    exact ⟨rfl, rfl⟩

/-- Witness for C7 at a concrete input: after `alice` chats once into
her conversation 0, selecting conversation 0 returns exactly the
persisted three-message transcript. -/
theorem C7_roundtrip_witness :
    wState.session.username = some "alice" ∧
    get_user wState.users "alice" = some wAlice ∧
    contentOf ⟨"hola", [], "m"⟩ ≠ "" ∧
    ((api_get_conversation (chat wState ⟨"hola", [], "m"⟩ (.primaryOk "y")).2
        ((wState.session.current_conversation.getD wAlice.conversations.length :
          Nat) : Int)).1 =
      SelectResult.ok (chat wState ⟨"hola", [], "m"⟩ (.primaryOk "y")).2.history ∧
    (api_get_conversation (chat wState ⟨"hola", [], "m"⟩ (.primaryOk "y")).2
        ((wState.session.current_conversation.getD wAlice.conversations.length :
          Nat) : Int)).2.history =
      (chat wState ⟨"hola", [], "m"⟩ (.primaryOk "y")).2.history) :=
  ⟨rfl, by decide, by decide,
   C7_roundtrip wState ⟨"hola", [], "m"⟩ (.primaryOk "y") "alice" wAlice rfl
     (by decide) (by decide)⟩

/-- C8: a chat request with no authenticated session is not rejected:
the user Turn and the assistant Turn are still appended to the Working
Transcript, the assistant reply is returned with a success status, and
the persisted user store is left completely unchanged. -/
theorem C8_unauthenticated
    (s : ServerState) (req : ChatRequest) (comp : CompletionResult)
    (hanon : s.session.username = none)
    (hc : contentOf req ≠ "") :
    (chat s req comp).1 = ChatResult.ok (assistantContentOf comp) ∧
    (chat s req comp).2.users = s.users ∧
    (chat s req comp).2.history =
      (if s.history.isEmpty then [systemTurn] else s.history) ++
        [⟨"user", contentOf req⟩, ⟨"assistant", assistantContentOf comp⟩] := by
  rw [chat_of_ne hc, persistChat_unauth hanon]
  exact ⟨rfl, rfl, rfl⟩

/-- Witness for C8 at a concrete input: a chat with no session username
succeeds and leaves the stored users untouched. -/
theorem C8_unauthenticated_witness :
    c8State.session.username = none ∧
    contentOf ⟨"hi", [], "m"⟩ ≠ "" ∧
    ((chat c8State ⟨"hi", [], "m"⟩ (.primaryOk "y")).1 =
      ChatResult.ok (assistantContentOf (.primaryOk "y")) ∧
    (chat c8State ⟨"hi", [], "m"⟩ (.primaryOk "y")).2.users = c8State.users ∧
    (chat c8State ⟨"hi", [], "m"⟩ (.primaryOk "y")).2.history =
      (if c8State.history.isEmpty then [systemTurn] else c8State.history) ++
        [⟨"user", contentOf ⟨"hi", [], "m"⟩⟩,
         ⟨"assistant", assistantContentOf (.primaryOk "y")⟩]) :=
  ⟨rfl, by decide,
   C8_unauthenticated c8State ⟨"hi", [], "m"⟩ (.primaryOk "y") rfl (by decide)⟩

/-- C9: when the session pointer is an index at or beyond the end of the
user's stored conversation list, persistence still succeeds: the list
is padded with empty conversations until the index is in range and the
full Working Transcript is written at that index. -/
theorem C9_stale_pointer_pads
    (s : ServerState) (req : ChatRequest) (comp : CompletionResult)
    (u : String) (user : User) (i : Nat)
    (hu : s.session.username = some u)
    (hg : get_user s.users u = some user)
    (hp : s.session.current_conversation = some i)
    (hge : user.conversations.length ≤ i)
    (hc : contentOf req ≠ "") :
    ∃ user2, get_user (chat s req comp).2.users u = some user2 ∧
      user2.conversations.length = i + 1 ∧
      user2.conversations.get? i = some ⟨(chat s req comp).2.history⟩ ∧
      ∀ j, user.conversations.length ≤ j → j < i →
        user2.conversations.get? j = some ⟨[]⟩ := by
  have husr := get_user_username hg
  subst husr
  rw [chat_of_ne hc, persistChat_some_ptr hu hg hp]
  refine ⟨{ user with conversations :=
      ((padTo user.conversations i).set i
        ⟨historyAfter s.history (contentOf req) (assistantContentOf comp)⟩) },
    get_user_update_self s.users _, ?_, ?_, ?_⟩
  · rw [show ({ user with conversations :=
        ((padTo user.conversations i).set i
          ⟨historyAfter s.history (contentOf req)
            (assistantContentOf comp)⟩) } : User).conversations =
        ((padTo user.conversations i).set i
          ⟨historyAfter s.history (contentOf req)
            (assistantContentOf comp)⟩) from rfl]
    rw [List.length_set, length_padTo]
    omega
  · have hlt : i < (padTo user.conversations i).length := by
      rw [length_padTo]; omega
    exact get?_set_self hlt _
  · intro j hj1 hj2
    rw [List.get?_eq_getElem?]
    rw [show ({ user with conversations :=
        ((padTo user.conversations i).set i
          ⟨historyAfter s.history (contentOf req)
            (assistantContentOf comp)⟩) } : User).conversations =
        ((padTo user.conversations i).set i
          ⟨historyAfter s.history (contentOf req)
            (assistantContentOf comp)⟩) from rfl]
    rw [List.getElem?_set_ne (by omega : i ≠ j)]
    unfold padTo
    rw [List.getElem?_append_right hj1]
    have hk : j - user.conversations.length <
        i + 1 - user.conversations.length := by omega
    simp [List.getElem?_replicate, hk]

/-- Witness for C9 at a concrete input: `alice` has a single stored
conversation but her pointer is 3; one chat pads her list to length 4,
leaves conversations 1 and 2 empty, and writes the transcript at 3. -/
theorem C9_stale_pointer_pads_witness :
    c9State.session.username = some "alice" ∧
    get_user c9State.users "alice" = some wAlice ∧
    c9State.session.current_conversation = some 3 ∧
    wAlice.conversations.length ≤ 3 ∧
    contentOf ⟨"hi", [], "m"⟩ ≠ "" ∧
    ∃ user2, get_user (chat c9State ⟨"hi", [], "m"⟩
        (.primaryOk "y")).2.users "alice" = some user2 ∧
      user2.conversations.length = 3 + 1 ∧
      user2.conversations.get? 3 =
        some ⟨(chat c9State ⟨"hi", [], "m"⟩ (.primaryOk "y")).2.history⟩ ∧
      ∀ j, wAlice.conversations.length ≤ j → j < 3 →
        user2.conversations.get? j = some ⟨[]⟩ :=
  ⟨rfl, by decide, rfl, by decide, by decide,
   C9_stale_pointer_pads c9State ⟨"hi", [], "m"⟩ (.primaryOk "y") "alice"
     wAlice 3 rfl (by decide) rfl (by decide) (by decide)⟩

/-- C10: for every conversation whose first user Turn has a content with
an empty first line, `list` returns the position-based title
`"Conversación {index+1}"`, which is not the default no-user-turn title
`"Nueva conversación"`. -/
theorem C10_positional_title
    (s : ServerState) (u : String) (user : User)
    (k : Nat) (convo : Conversation) (msg : Turn)
    (hu : s.session.username = some u)
    (hg : get_user s.users u = some user)
    (hk : user.conversations.get? k = some convo)
    (hfind : convo.messages.find? (fun m => m.role = "user") = some msg)
    (hline : firstLine50 msg.content = "") :
    ∃ l, api_conversations s = ListResult.ok l ∧
      l.get? k = some ⟨k, "Conversación " ++ toString (k + 1)⟩ ∧
      "Conversación " ++ toString (k + 1) ≠ "Nueva conversación" := by
  refine ⟨user.conversations.enum.map fun p => ⟨p.1, convTitle p.1 p.2⟩,
    ?_, ?_, conversacion_ne_nueva _⟩
  · simp only [api_conversations, hu, hg]
  · rw [List.get?_map, List.enum_get?, hk]
    simp [convTitle, hfind, hline]

/-- Witness for C10 at a concrete input: `bob`'s only conversation
starts with the user Turn `"\nsecret"`, whose first line is empty, and
is listed with title `"Conversación 1"`. -/
theorem C10_positional_title_witness :
    get_user c6State.users "bob" =
      some ⟨"bob", "ph", "user", [⟨[⟨"user", "\nsecret"⟩]⟩]⟩ ∧
    firstLine50 "\nsecret" = "" ∧
    ∃ l, api_conversations c6State = ListResult.ok l ∧
      l.get? 0 = some ⟨0, "Conversación " ++ toString (0 + 1)⟩ ∧
      "Conversación " ++ toString (0 + 1) ≠ "Nueva conversación" :=
  ⟨by decide, by decide,
   C10_positional_title c6State "bob"
     ⟨"bob", "ph", "user", [⟨[⟨"user", "\nsecret"⟩]⟩]⟩ 0
     ⟨[⟨"user", "\nsecret"⟩]⟩ ⟨"user", "\nsecret"⟩ rfl (by decide) (by decide)
     (by decide) (by decide)⟩

end ChatLLM
